import Mathlib

/-!
Verification of the scheduling-conflict and cross-aggregate consistency
engine of the business-management system: a shallow embedding of the
`app_team` domain models, repositories (`repos.py`), the meeting and task
application services, and the Unit-of-Work commit/rollback discipline
(`core/unit_of_work.py`), with theorems settling the stated properties.

Identifiers (UUIDs in the source) are modelled as `Nat`; timezone-aware
timestamps as `Int`; SQL `NUMERIC` averages as `ℚ`.
-/

set_option autoImplicit false

namespace BMS

/-- `EventType` enum (`app_team/application/enums.py`). -/
inductive EventType where
  | TASK
  | MEETING
  | GENERAL
deriving DecidableEq, Repr

/-- `MeetingStatus` enum. -/
inductive MeetingStatus where
  | PLANNED
  | COMPLETED
  | CANCELLED
deriving DecidableEq, Repr

/-- `TaskStatus` enum. -/
inductive TaskStatus where
  | OPEN
  | IN_PROGRESS
  | DONE
deriving DecidableEq, Repr

/-- `TaskGrade` enum: FAILED=0, DONE_DEADLINE_OUT=1, DONE_DEADLINE=2,
DONE_INITIATIVE=3. -/
inductive TaskGrade where
  | FAILED
  | DONE_DEADLINE_OUT
  | DONE_DEADLINE
  | DONE_INITIATIVE
deriving DecidableEq, Repr

/-- The integer value of a grade, as the SQL `CASE` mapping
`{grade.name: grade.value for grade in TaskGrade}` produces it. -/
def TaskGrade.value : TaskGrade → ℕ
  | .FAILED => 0
  | .DONE_DEADLINE_OUT => 1
  | .DONE_DEADLINE => 2
  | .DONE_INITIATIVE => 3

/-- `User` row (`app_auth/domain/models.py`): only the columns this core
reads (`id`, `is_active`, `command_id`). -/
structure User where
  id : Nat
  is_active : Bool := true
  command_id : Option Nat := none
deriving DecidableEq, Repr

/-- `Command` row (`app_org/domain/models.py`): only `id` and `is_active`. -/
structure Command where
  id : Nat
  is_active : Bool := true
deriving DecidableEq, Repr

/-- `CalendarEvent` row (`app_team/domain/models.py`), with its
`users_calendar_events` association rows inlined as the participant id
list `users`. -/
structure CalendarEvent where
  id : Nat
  title : String
  description : Option String := none
  start_time : Int
  end_time : Int
  event_type : EventType := .GENERAL
  all_day : Bool := false
  is_active : Bool := true
  users : List Nat := []
deriving DecidableEq, Repr

/-- `Meeting` row, with its `meeting_users` association rows inlined as the
member id list `members`; `calendar_event_id` points at the owned event. -/
structure Meeting where
  id : Nat
  topic : String
  description : Option String := none
  status : MeetingStatus := .PLANNED
  start_time : Int
  end_time : Int
  is_active : Bool := true
  creator_id : Option Nat := none
  command_id : Nat
  calendar_event_id : Nat
  members : List Nat := []
deriving DecidableEq, Repr

/-- `Task` row; `due_date` is compared through `func.date(...)` in every
query this development covers, so it is modelled directly as the date. -/
structure Task where
  id : Nat
  title : String
  status : TaskStatus := .OPEN
  grade : Option TaskGrade := none
  is_active : Bool := true
  due_date : Int
  creator_id : Nat
  assignee_id : Nat
  calendar_event_id : Option Nat := none
deriving DecidableEq, Repr

/-- `TaskComment` row. -/
structure TaskComment where
  id : Nat
  text : String
  is_active : Bool := true
  task_id : Nat
  commentator_id : Option Nat := none
  parent_comment_id : Option Nat := none
deriving DecidableEq, Repr

/-- The database state the repositories query: one list per table. -/
structure Db where
  users : List User := []
  commands : List Command := []
  events : List CalendarEvent := []
  meetings : List Meeting := []
  tasks : List Task := []
  task_comments : List TaskComment := []
deriving DecidableEq, Repr

/-- `session.add` then flush of an updated row: replace every row matching
the predicate (UPDATE by primary key). -/
def replaceWhere {α : Type} (l : List α) (p : α → Bool) (x : α) : List α :=
  l.map (fun y => if p y then x else y)

/-- `SACalendarEventRepo.check_overlap_users` (`repos.py` 331-355): select
`CalendarEvent.id` joined with `users_calendar_events`, where the
association's `user_id` is in `user_ids`, the event is not the excluded
`event_id`, and `start_time < end_time_new AND end_time > start_time_new`;
`limit(1)` returns the first such id or none.  The query has no
`is_active` filter. -/
def check_overlap_users (events : List CalendarEvent) (start_time end_time : Int)
    (user_ids : List Nat) (event_id : Nat) : Option Nat :=
  (((events.flatMap (fun ev => ev.users.map (fun u => (ev, u)))).filter
    (fun p => decide (p.2 ∈ user_ids) && !(decide (p.1.id = event_id))
      && decide (p.1.start_time < end_time) && decide (p.1.end_time > start_time))).map
    (fun p => p.1.id)).head?

/-- `SAPartnerRepo.get_by_id`: `select(User).where(User.id == user_id)`. -/
def partner_get_by_id (users : List User) (user_id : Nat) : Option User :=
  users.find? (fun u => decide (u.id = user_id))

/-- `SAPartnerRepo.get_command_by_id`. -/
def get_command_by_id (commands : List Command) (command_id : Nat) : Option Command :=
  commands.find? (fun c => decide (c.id = command_id))

/-- `SAPartnerRepo.user_share_command_id` (`repos.py` 66-92): false on an
empty input, else compare `count(User.id) where id in uniq_user_ids and
command_id == target` with the size of the deduplicated input.  There is
no `is_active` filter on the users. -/
def user_share_command_id (users : List User) (user_ids : List Nat)
    (target_command_id : Nat) : Bool :=
  if user_ids.isEmpty then false
  else
    let uniq_user_ids := user_ids.dedup
    if uniq_user_ids.length = 0 then false
    else
      (users.filter (fun u => decide (u.id ∈ uniq_user_ids)
        && decide (u.command_id = some target_command_id))).length = uniq_user_ids.length

/-- `SAPartnerRepo.users_in_seq`: the users whose id is in the input set;
raises (`none` here) on an empty input. -/
def users_in_seq (users : List User) (user_ids : List Nat) : Option (List User) :=
  let uniq := user_ids.dedup
  if uniq.isEmpty then none
  else some (users.filter (fun u => decide (u.id ∈ uniq)))

/-- `Meeting.add_members` (`models.py` 329-332): extend both the meeting's
member collection and the event's participant collection. -/
def add_members (m : Meeting) (ev : CalendarEvent) (new_members : List Nat) :
    Meeting × CalendarEvent :=
  ({ m with members := m.members ++ new_members },
   { ev with users := ev.users ++ new_members })

/-- `Meeting.__init__` (`models.py` 310-327): construct the meeting, create
its `CalendarEvent` with the meeting's topic, start/end and
`event_type=MEETING`, then `add_members` when the member list is not
empty.  `mid`/`eid` stand for the generated UUID defaults. -/
def meeting_construct (mid eid : Nat) (topic : String) (description : Option String)
    (status : MeetingStatus) (start_time end_time : Int)
    (creator_id : Option Nat) (command_id : Nat)
    (meet_members : List Nat) : Meeting × CalendarEvent :=
  let m : Meeting :=
    { id := mid, topic := topic, description := description, status := status,
      start_time := start_time, end_time := end_time,
      creator_id := creator_id, command_id := command_id,
      calendar_event_id := eid }
  let ev : CalendarEvent :=
    { id := eid, title := topic, start_time := start_time, end_time := end_time,
      event_type := .MEETING }
  if meet_members.isEmpty then (m, ev) else add_members m ev meet_members

/-- The domain errors the services raise (`domain/exceptions.py`;
`ValueError` in the service is `validationError`). `overlapError` carries
the `c_event_id` the service passes to `OverlapError(...)`. -/
inductive ServiceErr where
  | userNotFound (user_id : Nat)
  | commandNotFound (command_id : Nat)
  | meetingNotFound (meeting_id : Nat)
  | taskNotFound (task_id : Nat)
  | calendarEventNotFound (c_event_id : Nat)
  | overlapError (c_event_id : Nat)
  | validationError
deriving DecidableEq, Repr

/-- `MeetingCreate` schema (`application/schemas.py`). -/
structure MeetingCreate where
  topic : String
  description : Option String := none
  status : Option MeetingStatus := none
  start_time : Int
  end_time : Int
  creator_id : Nat
  command_id : Nat
  members_ids : List Nat
deriving DecidableEq, Repr

/-- A write pending in the SQLAlchemy session: added but not committed. -/
inductive PendingWrite where
  | addMeeting (m : Meeting)
  | addEvent (ev : CalendarEvent)
deriving DecidableEq, Repr

/-- Apply one pending write to a database state (what COMMIT does to it). -/
def applyWrite (db : Db) : PendingWrite → Db
  | .addMeeting m => { db with meetings := db.meetings ++ [m] }
  | .addEvent ev => { db with events := db.events ++ [ev] }

/-- The open Unit-of-Work transaction (`core/unit_of_work.py`): the
committed state plus the writes added/flushed in this scope. -/
structure Session where
  committed : Db
  pending : List PendingWrite
deriving DecidableEq, Repr

/-- What queries inside the transaction see: the committed state with the
flushed pending writes applied (reads see writes issued earlier in the
same scope). -/
def Session.view (s : Session) : Db := s.pending.foldl applyWrite s.committed

/-- `BaseSAUnitOfWork.commit`: persist the pending writes atomically. -/
def Session.commit (s : Session) : Session := { committed := s.view, pending := [] }

/-- `BaseSAUnitOfWork.rollback` (run by `__aexit__` when the scope exits
with an error): discard every pending write. -/
def Session.rollback (s : Session) : Session := { committed := s.committed, pending := [] }

/-- The body of `MeetingService.create` (`services/meeting.py` 34-70) run
inside the open Unit-of-Work: creator and command lookups, the
shared-command validation, member resolution, `Meeting(**...)`
construction (which creates the calendar event), `meetings.add` (a flush:
the pair becomes a pending write visible to this scope's queries), the
overlap check over the full member set excluding the just-created event
id, and on success the single commit.  On overlap the service raises
`OverlapError(meeting.calendar_event.id)`. -/
def meeting_create_body (s : Session) (data : MeetingCreate) (mid eid : Nat) :
    Session × Except ServiceErr Meeting :=
  let db := s.view
  if (partner_get_by_id db.users data.creator_id).isNone then
    (s, .error (.userNotFound data.creator_id))
  else if (get_command_by_id db.commands data.command_id).isNone then
    (s, .error (.commandNotFound data.command_id))
  else if !(user_share_command_id db.users data.members_ids data.command_id) then
    (s, .error .validationError)
  else
    match users_in_seq db.users data.members_ids with
    | none => (s, .error .validationError)
    | some members =>
      let members_ids := members.map (fun u => u.id)
      let (meeting, ev) := meeting_construct mid eid data.topic data.description
        (data.status.getD .PLANNED) data.start_time data.end_time
        (some data.creator_id) data.command_id members_ids
      let s1 : Session := { s with pending := s.pending ++ [.addMeeting meeting, .addEvent ev] }
      match check_overlap_users (s1.view).events data.start_time data.end_time
        members_ids.dedup eid with
      | some _ => (s1, .error (.overlapError eid))
      | none => (s1.commit, .ok meeting)

/-- `MeetingService.create` as seen from outside the Unit-of-Work scope:
`__aexit__` rolls the session back when the body raised, so the caller
observes the committed state only. -/
def meeting_create (db : Db) (data : MeetingCreate) (mid eid : Nat) :
    Db × Except ServiceErr Meeting :=
  match meeting_create_body { committed := db, pending := [] } data mid eid with
  | (s, .ok m) => (s.committed, .ok m)
  | (s, .error e) => (s.rollback.committed, .error e)

/-- `MeetingService.include_users` (`services/meeting.py` 108-146): load
the meeting, take the set difference of the new ids minus the current
members, return the unchanged meeting when it is empty, otherwise run the
overlap check for only the new ids against the meeting's window, validate
the shared command, resolve the users, `add_members`, and commit. -/
def include_users (db : Db) (meeting_id : Nat) (user_ids : List Nat) :
    Db × Except ServiceErr Meeting :=
  match db.meetings.find? (fun m => decide (m.id = meeting_id)) with
  | none => (db, .error (.meetingNotFound meeting_id))
  | some meeting =>
    let existing_ids := meeting.members
    let uq_new_ids := user_ids.dedup.filter (fun i => !(decide (i ∈ existing_ids)))
    if uq_new_ids.isEmpty then (db, .ok meeting)
    else
      match db.events.find? (fun ev => decide (ev.id = meeting.calendar_event_id)) with
      | none => (db, .error (.calendarEventNotFound meeting.calendar_event_id))
      | some ev =>
        match check_overlap_users db.events meeting.start_time meeting.end_time
          uq_new_ids ev.id with
        | some _ => (db, .error (.overlapError ev.id))
        | none =>
          if !(user_share_command_id db.users uq_new_ids meeting.command_id) then
            (db, .error .validationError)
          else
            match users_in_seq db.users uq_new_ids with
            | none => (db, .error .validationError)
            | some new_members =>
              let new_ids := new_members.map (fun u => u.id)
              let (meeting', ev') := add_members meeting ev new_ids
              let ms := replaceWhere db.meetings (fun m => decide (m.id = meeting.id)) meeting'
              let evs := replaceWhere db.events (fun x => decide (x.id = ev.id)) ev'
              ({ db with meetings := ms, events := evs }, .ok meeting')

/-- `MeetingService.deactivate` (`services/meeting.py` 95-106): not found
raises; an already-inactive meeting is an idempotent no-op (no commit);
otherwise `is_active` is cleared and committed.  Returns `True`. -/
def meeting_deactivate (db : Db) (meeting_id : Nat) : Db × Except ServiceErr Bool :=
  match db.meetings.find? (fun m => decide (m.id = meeting_id)) with
  | none => (db, .error (.meetingNotFound meeting_id))
  | some meeting =>
    if meeting.is_active then
      let ms := replaceWhere db.meetings (fun m => decide (m.id = meeting.id))
        { meeting with is_active := false }
      ({ db with meetings := ms }, .ok true)
    else (db, .ok true)

/-- `SATaskRepo.get_by_id` / `get_by_id_comments` task lookup. -/
def task_get_by_id (tasks : List Task) (task_id : Nat) : Option Task :=
  tasks.find? (fun t => decide (t.id = task_id))

/-- `TaskService.get_task_comments` (`services/task.py` 32-39): a missing
or soft-deleted (`not task.is_active`) task raises `TaskNotFound`. -/
def get_task_comments (db : Db) (task_id : Nat) :
    Except ServiceErr (Task × List TaskComment) :=
  match task_get_by_id db.tasks task_id with
  | none => .error (.taskNotFound task_id)
  | some task =>
    if !task.is_active then .error (.taskNotFound task_id)
    else .ok (task, db.task_comments.filter (fun c => decide (c.task_id = task_id)))

/-- `TaskUpdate` schema: `some` marks a field the caller supplied. -/
structure TaskUpdate where
  title : Option String := none
  status : Option TaskStatus := none
  grade : Option TaskGrade := none
  due_date : Option Int := none
  assignee_id : Option Nat := none
  calendar_event_id : Option Nat := none
deriving DecidableEq, Repr

/-- Apply `TaskUpdate`'s supplied fields to a task, reporting whether any
field actually changed (`needs_update` in the source). -/
def apply_task_update (task : Task) (data : TaskUpdate) : Task × Bool :=
  let s0 := (task, false)
  let s1 := match data.title with
    | some v => if s0.1.title ≠ v then ({ s0.1 with title := v }, true) else s0
    | none => s0
  let s2 := match data.status with
    | some v => if s1.1.status ≠ v then ({ s1.1 with status := v }, true) else s1
    | none => s1
  let s3 := match data.grade with
    | some v => if s2.1.grade ≠ some v then ({ s2.1 with grade := some v }, true) else s2
    | none => s2
  let s4 := match data.due_date with
    | some v => if s3.1.due_date ≠ v then ({ s3.1 with due_date := v }, true) else s3
    | none => s3
  let s5 := match data.assignee_id with
    | some v => if s4.1.assignee_id ≠ v then ({ s4.1 with assignee_id := v }, true) else s4
    | none => s4
  match data.calendar_event_id with
    | some v =>
      if s5.1.calendar_event_id ≠ some v then
        ({ s5.1 with calendar_event_id := some v }, true)
      else s5
    | none => s5

/-- `TaskService.update_task` (`services/task.py` 137-164): a missing or
soft-deleted task raises `TaskNotFound`; a supplied assignee or calendar
event must exist; only changed fields trigger a commit. -/
def update_task (db : Db) (task_id : Nat) (data : TaskUpdate) :
    Db × Except ServiceErr Task :=
  match task_get_by_id db.tasks task_id with
  | none => (db, .error (.taskNotFound task_id))
  | some task =>
    if !task.is_active then (db, .error (.taskNotFound task_id))
    else
      match data.assignee_id with
      | some a =>
        if (partner_get_by_id db.users a).isNone then
          (db, .error (.userNotFound a))
        else update_task_checked db task_id task data
      | none => update_task_checked db task_id task data
where
  update_task_checked (db : Db) (task_id : Nat) (task : Task) (data : TaskUpdate) :
      Db × Except ServiceErr Task :=
    match data.calendar_event_id with
    | some c =>
      if (db.events.find? (fun ev => decide (ev.id = c))).isNone then
        (db, .error (.calendarEventNotFound c))
      else update_task_apply db task_id task data
    | none => update_task_apply db task_id task data
  update_task_apply (db : Db) (task_id : Nat) (task : Task) (data : TaskUpdate) :
      Db × Except ServiceErr Task :=
    let (task', needs_update) := apply_task_update task data
    if needs_update then
      ({ db with tasks := replaceWhere db.tasks (fun t => decide (t.id = task_id)) task' },
       .ok task')
    else (db, .ok task')

/-- `TaskService.deactivate_task` (`services/task.py` 166-176): a missing
or soft-deleted task raises `TaskNotFound`; otherwise `is_active` is
cleared and committed. -/
def deactivate_task (db : Db) (task_id : Nat) : Db × Except ServiceErr Bool :=
  match task_get_by_id db.tasks task_id with
  | none => (db, .error (.taskNotFound task_id))
  | some task =>
    if !task.is_active then (db, .error (.taskNotFound task_id))
    else
      let ts := replaceWhere db.tasks (fun t => decide (t.id = task_id))
        { task with is_active := false }
      ({ db with tasks := ts }, .ok true)

/-- `func.date(Task.due_date)` between the period bounds, and the `CASE`
mapping requires a set grade (`Task.grade.is_not(None)`). -/
def task_in_period (t : Task) (start_date end_date : Int) : Bool :=
  decide (start_date ≤ t.due_date) && decide (t.due_date ≤ end_date)

/-- The joined rows of `get_avg_grade_period_command`'s subquery
(`repos.py` 201-240): `Task JOIN User ON User.id == Task.assignee_id`
where `User.command_id == command_id`, the due date is in the period and
the grade is set; each row keeps the grouping key `Task.assignee_id` and
the grade's integer value. -/
def command_grade_rows (db : Db) (command_id : Nat) (start_date end_date : Int) :
    List (Nat × ℕ) :=
  db.tasks.flatMap (fun t =>
    db.users.filterMap (fun u =>
      match t.grade with
      | some g =>
        if decide (u.id = t.assignee_id) && decide (u.command_id = some command_id)
            && task_in_period t start_date end_date then
          some (t.assignee_id, g.value)
        else none
      | none => none))

/-- The join condition of the subquery seen from one assignee id: some
user row has this id and belongs to the command. -/
def users_match (db : Db) (command_id a : Nat) : Bool :=
  db.users.any (fun u => decide (u.id = a) && decide (u.command_id = some command_id))

/-- SQL `avg` over a group of integer grades, as an exact rational. -/
def ratAvg (l : List ℕ) : ℚ := ((l.map (fun g => (g : ℚ))).sum) / l.length

/-- SQL `round(x, 4)`: half away from zero on the non-negative averages
this core produces, i.e. `floor(x * 10^4 + 1/2) / 10^4`. -/
def round4 (x : ℚ) : ℚ := ((Int.floor (x * 10000 + 1/2) : ℚ)) / 10000

/-- `SATaskRepo.get_avg_grade_period_command` (`repos.py` 201-240): the
subquery computes `avg` of the grade values grouped by `Task.assignee_id`;
the main query returns `round(avg(user_avg_grade), 4)`, which is NULL
(`none`) when the subquery has no groups. -/
def get_avg_grade_period_command (db : Db) (command_id : Nat)
    (start_date end_date : Int) : Option ℚ :=
  let rows := command_grade_rows db command_id start_date end_date
  let keys := (rows.map Prod.fst).dedup
  let avgs := keys.map (fun a => ratAvg ((rows.filter (fun r => decide (r.1 = a))).map Prod.snd))
  if avgs.isEmpty then none else some (round4 (avgs.sum / avgs.length))

/-- The grade values of one assignee's graded tasks due in the period:
the "same rule as above" the spec's §4.5 uses per assignee. -/
def user_task_grades (db : Db) (assignee_id : Nat) (start_date end_date : Int) :
    List ℕ :=
  db.tasks.filterMap (fun t =>
    match t.grade with
    | some g =>
      if decide (t.assignee_id = assignee_id) && task_in_period t start_date end_date then
        some g.value
      else none
    | none => none)

/-- The spec's wording of §4.5 `avg_grade_for_command`, as the comparison
definition for the refinement: each command member's own average grade in
range, then the unweighted mean of those per-assignee averages, rounded
the same way; `none` when no member has a graded task in range. -/
def spec_avg_grade_for_command (db : Db) (command_id : Nat)
    (start_date end_date : Int) : Option ℚ :=
  let members := db.users.filter (fun u => decide (u.command_id = some command_id))
  let avgs := members.filterMap (fun u =>
    let gs := user_task_grades db u.id start_date end_date
    if gs.isEmpty then none else some (ratAvg gs))
  if avgs.isEmpty then none else some (round4 (avgs.sum / avgs.length))

/-- The flat mean the spec contrasts with: one average over all individual
graded task values of the command's members in range, rounded the same
way. -/
def spec_flat_avg_grade (db : Db) (command_id : Nat)
    (start_date end_date : Int) : Option ℚ :=
  let members := db.users.filter (fun u => decide (u.command_id = some command_id))
  let gs := members.flatMap (fun u => user_task_grades db u.id start_date end_date)
  if gs.isEmpty then none else some (round4 (ratAvg gs))

/-! Concrete inputs used by the witnesses and counterexamples. -/

/-- A soft-deleted (`is_active = false`) event of user 7 on `[0, 10)`. -/
def inactiveEvent : CalendarEvent :=
  { id := 1, title := "retro", start_time := 0, end_time := 10,
    is_active := false, users := [7] }

/-- An active event of user 7 on `[0, 10)`. -/
def demoEvent : CalendarEvent :=
  { id := 5, title := "standup", start_time := 0, end_time := 10, users := [7] }

/-- A user whose account is deactivated but who still belongs to command 9. -/
def inactiveUser : User := { id := 1, is_active := false, command_id := some 9 }

/-- A database with user 7 in command 1 and the active event `demoEvent`. -/
def demoDb : Db :=
  { users := [{ id := 7, command_id := some 1 }],
    commands := [{ id := 1 }],
    events := [demoEvent] }

/-- A meeting-creation request for user 7 on `[5, 15)`, which overlaps
`demoEvent`. -/
def demoCreate : MeetingCreate :=
  { topic := "planning", start_time := 5, end_time := 15,
    creator_id := 7, command_id := 1, members_ids := [7] }

/-- A meeting-creation request for user 7 on `[10, 15)`, which only
touches `demoEvent` at its end instant. -/
def demoCreateTouching : MeetingCreate :=
  { topic := "planning", start_time := 10, end_time := 15,
    creator_id := 7, command_id := 1, members_ids := [7] }

/-- The meeting the successful touching request persists. -/
def demoMeeting : Meeting :=
  { id := 50, topic := "planning", start_time := 10, end_time := 15,
    creator_id := some 7, command_id := 1, calendar_event_id := 100,
    members := [7] }

/-- A database for the grading demonstration: command 1 has assignee 1
with one grade-3 task and assignee 2 with three grade-0 tasks, all due in
the period `[0, 10]`. -/
def gradeDb : Db :=
  { users := [{ id := 1, command_id := some 1 }, { id := 2, command_id := some 1 }],
    commands := [{ id := 1 }],
    tasks :=
      [{ id := 11, title := "a", grade := some .DONE_INITIATIVE, due_date := 5,
         creator_id := 9, assignee_id := 1 },
       { id := 12, title := "b", grade := some .FAILED, due_date := 5,
         creator_id := 9, assignee_id := 2 },
       { id := 13, title := "c", grade := some .FAILED, due_date := 6,
         creator_id := 9, assignee_id := 2 },
       { id := 14, title := "d", grade := some .FAILED, due_date := 7,
         creator_id := 9, assignee_id := 2 }] }

/-- A database whose meeting 3 (members `[7]`, window `[0, 10)`) owns
event 5; user 8 shares command 1 and has no other commitments. -/
def includeDb : Db :=
  { users := [{ id := 7, command_id := some 1 }, { id := 8, command_id := some 1 }],
    commands := [{ id := 1 }],
    events := [{ id := 5, title := "m", start_time := 0, end_time := 10, users := [7],
                 event_type := .MEETING }],
    meetings := [{ id := 3, topic := "m", start_time := 0, end_time := 10,
                   command_id := 1, calendar_event_id := 5, members := [7] }] }

/-- An inactive task assigned to user 7. -/
def inactiveTask : Task :=
  { id := 21, title := "old", is_active := false, due_date := 5,
    creator_id := 7, assignee_id := 7 }

/-- A database holding only the inactive task and an inactive meeting. -/
def inactiveDb : Db :=
  { users := [{ id := 7, command_id := some 1 }],
    tasks := [inactiveTask],
    meetings := [{ id := 31, topic := "done", start_time := 0, end_time := 1,
                   is_active := false, command_id := 1, calendar_event_id := 41 }] }

theorem check_overlap_users_isSome_iff (events : List CalendarEvent) (s e : Int)
    (uids : List Nat) (eid : Nat) :
    (check_overlap_users events s e uids eid).isSome ↔
      ∃ ev ∈ events, ev.id ≠ eid ∧ (∃ u ∈ ev.users, u ∈ uids) ∧
        ev.start_time < e ∧ s < ev.end_time := by
  unfold check_overlap_users
  rw [Option.isSome_iff_ne_none, ne_eq, List.head?_eq_none_iff, List.map_eq_nil_iff,
    List.filter_eq_nil_iff]
  push_neg
  constructor
  · rintro ⟨p, hmem, hpred⟩
    simp only [List.mem_flatMap, List.mem_map] at hmem
    obtain ⟨ev2, hev2, u2, hu2, heq⟩ := hmem
    subst heq
    simp only [Bool.and_eq_true, decide_eq_true_eq, Bool.not_eq_true',
      decide_eq_false_iff_not] at hpred
    exact ⟨ev2, hev2, hpred.1.1.2, ⟨u2, hu2, hpred.1.1.1⟩, hpred.1.2, hpred.2⟩
  · rintro ⟨ev, hev, hid, ⟨u, hu, huid⟩, h1, h2⟩
    refine ⟨(ev, u), ?_, ?_⟩
    · simp only [List.mem_flatMap, List.mem_map]
      exact ⟨ev, hev, u, hu, rfl⟩
    · simp only [Bool.and_eq_true, decide_eq_true_eq, Bool.not_eq_true',
        decide_eq_false_iff_not]
      exact ⟨⟨⟨huid, hid⟩, h1⟩, h2⟩

/-- C1: the overlap check reports a conflict iff some other calendar event
shares at least one participant with the candidate set and satisfies
`existing.start_time < candidate.end_time` and
`existing.end_time > candidate.start_time`; when every event of the store
is disjoint from or merely touches the candidate window, no conflict is
reported. -/
theorem c1_check_overlap_iff_strict_intersection :
    ∀ (events : List CalendarEvent) (start_time end_time : Int)
      (user_ids : List Nat) (event_id : Nat),
      ((check_overlap_users events start_time end_time user_ids event_id).isSome ↔
        ∃ ev ∈ events, ev.id ≠ event_id ∧ (∃ u ∈ ev.users, u ∈ user_ids) ∧
          ev.start_time < end_time ∧ start_time < ev.end_time) ∧
      ((∀ ev ∈ events, ev.end_time ≤ start_time ∨ end_time ≤ ev.start_time) →
        check_overlap_users events start_time end_time user_ids event_id = none) := by
  intro events s e uids eid
  refine ⟨check_overlap_users_isSome_iff events s e uids eid, ?_⟩
  intro hdisj
  cases hr : check_overlap_users events s e uids eid with
  | none => rfl
  | some v =>
    have hs : (check_overlap_users events s e uids eid).isSome := by rw [hr]; rfl
    rw [check_overlap_users_isSome_iff] at hs
    obtain ⟨ev, hev, _, _, h1, h2⟩ := hs
    rcases hdisj ev hev with h | h <;> omega

/-- C4 counterexample: a soft-deleted event (`is_active = false`) sharing
participant 7 and intersecting the window is still reported as the
conflict. -/
theorem c4_counterexample :
    inactiveEvent.is_active = false ∧
    check_overlap_users [inactiveEvent] 0 10 [7] 99 = some inactiveEvent.id := by
  constructor <;> rfl

/-- C4 amended: `check_overlap_users` is entirely insensitive to the
`is_active` flags — rewriting the flags arbitrarily never changes its
answer, so a soft-deleted event blocks exactly as an active one does. -/
theorem c4_check_overlap_ignores_is_active :
    ∀ (events : List CalendarEvent) (start_time end_time : Int)
      (user_ids : List Nat) (event_id : Nat) (f : CalendarEvent → Bool),
      check_overlap_users (events.map (fun ev => { ev with is_active := f ev }))
          start_time end_time user_ids event_id =
        check_overlap_users events start_time end_time user_ids event_id := by
  intro events s e uids eid f
  unfold check_overlap_users
  induction events with
  | nil => rfl
  | cons ev t ih =>
    simp only [List.map_cons, List.flatMap_cons, List.filter_append, List.map_append,
      List.head?_append]
    rw [ih]
    congr 1
    simp only [List.filter_map, List.map_map]
    rfl

/-- C5 counterexample: the zero-length candidate window `[5, 5)` for
participant 7 is reported as conflicting with the active event on
`[0, 10)` that strictly contains the instant 5. -/
theorem c5_counterexample :
    demoEvent.start_time < 5 ∧ (5 : Int) < demoEvent.end_time ∧
    check_overlap_users [demoEvent] 5 5 [7] 99 = some demoEvent.id := by
  refine ⟨by decide, by decide, rfl⟩

/-- C5 amended: a zero-length candidate window `[t, t)` reports a conflict
exactly when some other shared-participant event strictly contains the
instant `t` (`start_time < t < end_time`); events merely touching `t`
never conflict, but a strictly containing event does. -/
theorem c5_zero_length_window_overlap_iff :
    ∀ (events : List CalendarEvent) (t : Int) (user_ids : List Nat) (event_id : Nat),
      ((check_overlap_users events t t user_ids event_id).isSome ↔
        ∃ ev ∈ events, ev.id ≠ event_id ∧ (∃ u ∈ ev.users, u ∈ user_ids) ∧
          ev.start_time < t ∧ t < ev.end_time) :=
  fun events t user_ids event_id => check_overlap_users_isSome_iff events t t user_ids event_id

theorem user_share_command_id_iff (users : List User) (user_ids : List Nat)
    (target : Nat) (hnd : (users.map User.id).Nodup) :
    user_share_command_id users user_ids target = true ↔
      user_ids ≠ [] ∧
        ∀ i ∈ user_ids, ∃ u ∈ users, u.id = i ∧ u.command_id = some target := by
  unfold user_share_command_id
  by_cases hemp : user_ids.isEmpty
  · rw [if_pos hemp]
    simp [List.isEmpty_iff.mp hemp]
  · rw [if_neg hemp]
    have hne : user_ids ≠ [] := by
      intro h
      exact hemp (by simp [h])
    have hdne : user_ids.dedup ≠ [] := by
      intro h
      rcases List.exists_mem_of_ne_nil user_ids hne with ⟨i, hi⟩
      have : i ∈ user_ids.dedup := List.mem_dedup.mpr hi
      simp [h] at this
    rw [if_neg (by simpa [List.length_eq_zero] using hdne)]
    have hSnd : ((users.filter (fun u => decide (u.id ∈ user_ids.dedup)
        && decide (u.command_id = some target))).map User.id).Nodup :=
      List.Nodup.sublist (List.Sublist.map User.id (List.filter_sublist users)) hnd
    have hSsub : ((users.filter (fun u => decide (u.id ∈ user_ids.dedup)
        && decide (u.command_id = some target))).map User.id) ⊆ user_ids.dedup := by
      intro i hi
      rcases List.mem_map.mp hi with ⟨u, hu, rfl⟩
      rcases List.mem_filter.mp hu with ⟨_, hcond⟩
      simp only [Bool.and_eq_true, decide_eq_true_eq] at hcond
      exact hcond.1
    constructor
    · intro hcount
      have hlen : (users.filter (fun u => decide (u.id ∈ user_ids.dedup)
          && decide (u.command_id = some target))).length = user_ids.dedup.length :=
        decide_eq_true_eq.mp hcount
      have hperm : ((users.filter (fun u => decide (u.id ∈ user_ids.dedup)
          && decide (u.command_id = some target))).map User.id).Perm user_ids.dedup := by
        refine List.Subperm.perm_of_length_le (List.subperm_of_subset hSnd hSsub) ?_
        rw [List.length_map, hlen]
      refine ⟨hne, fun i hi => ?_⟩
      have hiq : i ∈ user_ids.dedup := List.mem_dedup.mpr hi
      have him : i ∈ (users.filter (fun u => decide (u.id ∈ user_ids.dedup)
          && decide (u.command_id = some target))).map User.id := hperm.mem_iff.mpr hiq
      rcases List.mem_map.mp him with ⟨u, hu, rfl⟩
      rcases List.mem_filter.mp hu with ⟨humem, hcond⟩
      simp only [Bool.and_eq_true, decide_eq_true_eq] at hcond
      exact ⟨u, humem, rfl, hcond.2⟩
    · rintro ⟨-, hall⟩
      have hsub2 : user_ids.dedup ⊆ ((users.filter (fun u => decide (u.id ∈ user_ids.dedup)
          && decide (u.command_id = some target))).map User.id) := by
        intro i hi
        rcases hall i (List.mem_dedup.mp hi) with ⟨u, hu, hui, hcmd⟩
        refine List.mem_map.mpr ⟨u, List.mem_filter.mpr ⟨hu, ?_⟩, hui⟩
        simp only [Bool.and_eq_true, decide_eq_true_eq]
        exact ⟨by rw [hui]; exact hi, hcmd⟩
      have h1 := (List.subperm_of_subset hSnd hSsub).length_le
      have h2 := (List.subperm_of_subset (List.nodup_dedup user_ids) hsub2).length_le
      rw [List.length_map] at h1 h2
      exact decide_eq_true_eq.mpr (le_antisymm h1 h2)

/-- C7 counterexample: a deactivated user (`is_active = false`) who still
has `command_id = 9` makes `user_share_command_id [user] [1] 9` true, so
the check does not require the users to be active. -/
theorem c7_counterexample :
    user_share_command_id [inactiveUser] [1] 9 = true ∧
    inactiveUser.is_active = false := by
  constructor <;> rfl

/-- C7 amended: `user_share_command_id` returns true iff the input is
non-empty and every id of the (deduplicated) input resolves to a user —
active or not — belonging to the target command; an empty input is always
false.  (The `is_active` flag is not consulted.) -/
theorem c7_share_command_resolves_all_ids :
    ∀ (users : List User) (user_ids : List Nat) (target_command_id : Nat),
      (users.map User.id).Nodup →
      (user_share_command_id users user_ids target_command_id = true ↔
        user_ids ≠ [] ∧
          ∀ i ∈ user_ids, ∃ u ∈ users,
            u.id = i ∧ u.command_id = some target_command_id) :=
  fun users user_ids target hnd => user_share_command_id_iff users user_ids target hnd

/-- C7 witness: the amended characterization evaluated on the demo store,
where user 7 belongs to command 1. -/
theorem c7_share_command_resolves_all_ids_witness :
    user_share_command_id demoDb.users [7] 1 = true ↔
      ([7] : List Nat) ≠ [] ∧
        ∀ i ∈ ([7] : List Nat), ∃ u ∈ demoDb.users, u.id = i ∧ u.command_id = some 1 :=
  c7_share_command_resolves_all_ids demoDb.users [7] 1 (by decide)

theorem meeting_construct_pair_spec (mid eid : Nat) (topic : String)
    (description : Option String) (status : MeetingStatus) (st en : Int)
    (creator_id : Option Nat) (command_id : Nat) (meet_members : List Nat) :
    (meeting_construct mid eid topic description status st en creator_id command_id
        meet_members).2.event_type = .MEETING ∧
    (meeting_construct mid eid topic description status st en creator_id command_id
        meet_members).2.start_time =
      (meeting_construct mid eid topic description status st en creator_id command_id
        meet_members).1.start_time ∧
    (meeting_construct mid eid topic description status st en creator_id command_id
        meet_members).2.end_time =
      (meeting_construct mid eid topic description status st en creator_id command_id
        meet_members).1.end_time ∧
    (meeting_construct mid eid topic description status st en creator_id command_id
        meet_members).2.users =
      (meeting_construct mid eid topic description status st en creator_id command_id
        meet_members).1.members ∧
    (meeting_construct mid eid topic description status st en creator_id command_id
        meet_members).1.calendar_event_id =
      (meeting_construct mid eid topic description status st en creator_id command_id
        meet_members).2.id ∧
    (meeting_construct mid eid topic description status st en creator_id command_id
        meet_members).2.id = eid := by
  unfold meeting_construct add_members
  split <;> simp

theorem meeting_create_body_split (s : Session) (data : MeetingCreate) (mid eid : Nat) :
    ((meeting_create_body s data mid eid).1.committed = s.committed ∧
      ∃ e, (meeting_create_body s data mid eid).2 = .error e ∧
        ∀ cid, e = .overlapError cid → cid = eid) ∨
    (∃ m ev, meeting_create_body s data mid eid =
        (Session.commit { s with pending := s.pending ++ [.addMeeting m, .addEvent ev] },
          .ok m) ∧
      ev.event_type = .MEETING ∧ ev.start_time = m.start_time ∧
      ev.end_time = m.end_time ∧ ev.users = m.members ∧
      m.calendar_event_id = ev.id ∧ ev.id = eid) := by
  unfold meeting_create_body
  dsimp only
  split
  · exact .inl ⟨rfl, _, rfl, fun cid hc => by simp at hc⟩
  · split
    · exact .inl ⟨rfl, _, rfl, fun cid hc => by simp at hc⟩
    · split
      · exact .inl ⟨rfl, _, rfl, fun cid hc => by simp at hc⟩
      · split
        · exact .inl ⟨rfl, _, rfl, fun cid hc => by simp at hc⟩
        · split
          · refine .inl ⟨rfl, _, rfl, fun cid hc => ?_⟩
            simp only [ServiceErr.overlapError.injEq] at hc
            exact hc.symm
          · rename_i x1 members hseq x2 hover
            refine .inr ⟨_, _, rfl, ?_⟩
            exact (meeting_construct_pair_spec mid eid data.topic data.description
              (data.status.getD .PLANNED) data.start_time data.end_time
              (some data.creator_id) data.command_id (members.map (fun u => u.id)))

/-- C2: a failed meeting creation (missing creator or command, members not
sharing the command, or an overlap conflict) commits nothing — the
Unit-of-Work is rolled back and the store's meetings and events are
exactly the ones it held before the call. -/
theorem c2_failed_create_commits_nothing :
    ∀ (db : Db) (data : MeetingCreate) (mid eid : Nat) (e : ServiceErr),
      (meeting_create db data mid eid).2 = .error e →
      (meeting_create db data mid eid).1.meetings = db.meetings ∧
      (meeting_create db data mid eid).1.events = db.events := by
  intro db data mid eid e herr
  unfold meeting_create at *
  rcases meeting_create_body_split ⟨db, []⟩ data mid eid with
    ⟨hcom, e2, herr2, -⟩ | ⟨m2, ev, heq, -⟩
  · rcases hb : meeting_create_body ⟨db, []⟩ data mid eid with ⟨sx, r⟩
    rw [hb] at herr2 hcom
    cases r with
    | ok mm => simp at herr2
    | error e3 =>
      have hc : sx.committed = db := hcom
      simp only [Session.rollback]
      exact ⟨by rw [hc], by rw [hc]⟩
  · rw [heq] at herr
    simp at herr

/-- C2 witness: the overlapping request on the demo store fails and leaves
the store's meetings and events unchanged. -/
theorem c2_failed_create_commits_nothing_witness :
    (meeting_create demoDb demoCreate 50 100).1.meetings = demoDb.meetings ∧
    (meeting_create demoDb demoCreate 50 100).1.events = demoDb.events :=
  c2_failed_create_commits_nothing demoDb demoCreate 50 100 (.overlapError 100) rfl

/-- C3: a successful meeting creation persists exactly one new calendar
event together with the meeting; the event has `event_type = MEETING`, its
start/end equal the meeting's, and its participant list equals the
meeting's member list at creation time. -/
theorem c3_create_builds_mirrored_event :
    ∀ (db : Db) (data : MeetingCreate) (mid eid : Nat) (m : Meeting),
      (meeting_create db data mid eid).2 = .ok m →
      ∃ ev : CalendarEvent,
        (meeting_create db data mid eid).1.events = db.events ++ [ev] ∧
        (meeting_create db data mid eid).1.meetings = db.meetings ++ [m] ∧
        ev.event_type = .MEETING ∧ ev.start_time = m.start_time ∧
        ev.end_time = m.end_time ∧ ev.users = m.members ∧
        m.calendar_event_id = ev.id := by
  intro db data mid eid m hok
  unfold meeting_create at *
  rcases meeting_create_body_split ⟨db, []⟩ data mid eid with
    ⟨hcom, e2, herr2, -⟩ | ⟨m2, ev, heq, hp⟩
  · rcases hb : meeting_create_body ⟨db, []⟩ data mid eid with ⟨sx, r⟩
    rw [hb] at herr2 hok
    cases r with
    | ok mm => simp at herr2
    | error e3 => simp at hok
  · rw [heq] at hok ⊢
    simp only [Except.ok.injEq] at hok
    subst hok
    refine ⟨ev, ?_, ?_, hp.1, hp.2.1, hp.2.2.1, hp.2.2.2.1, hp.2.2.2.2.1⟩
    · simp [Session.commit, Session.view, applyWrite]
    · simp [Session.commit, Session.view, applyWrite]

/-- C3 witness: the touching (non-overlapping) request on the demo store
succeeds and builds the mirrored event. -/
theorem c3_create_builds_mirrored_event_witness :
    ∃ ev : CalendarEvent,
      (meeting_create demoDb demoCreateTouching 50 100).1.events = demoDb.events ++ [ev] ∧
      (meeting_create demoDb demoCreateTouching 50 100).1.meetings =
        demoDb.meetings ++ [demoMeeting] ∧
      ev.event_type = .MEETING ∧ ev.start_time = demoMeeting.start_time ∧
      ev.end_time = demoMeeting.end_time ∧ ev.users = demoMeeting.members ∧
      demoMeeting.calendar_event_id = ev.id :=
  c3_create_builds_mirrored_event demoDb demoCreateTouching 50 100 demoMeeting rfl

/-- C6 counterexample: on the demo store the creation fails with
`OverlapError(100)` — the id of the meeting's own just-created calendar
event — although the conflicting pre-existing event the overlap check
returns is event 5. -/
theorem c6_counterexample :
    (meeting_create demoDb demoCreate 50 100).2 = .error (.overlapError 100) ∧
    check_overlap_users demoDb.events demoCreate.start_time demoCreate.end_time
      [7] 100 = some 5 ∧ (100 : Nat) ≠ 5 :=
  ⟨rfl, rfl, by decide⟩

/-- C6 amended: whenever meeting creation or member inclusion raises
`OverlapError`, the error carries the id of the candidate's own calendar
event (the just-created event, or the meeting's existing event), not the
conflicting event id the overlap check returned. -/
theorem c6_overlap_error_carries_candidate_id :
    ∀ (db : Db) (data : MeetingCreate) (mid eid cid : Nat)
      (meeting_id : Nat) (user_ids : List Nat),
      ((meeting_create db data mid eid).2 = .error (.overlapError cid) → cid = eid) ∧
      ((include_users db meeting_id user_ids).2 = .error (.overlapError cid) →
        ∃ m, db.meetings.find? (fun x => decide (x.id = meeting_id)) = some m ∧
          ∃ ev, db.events.find? (fun x => decide (x.id = m.calendar_event_id)) = some ev ∧
            cid = ev.id) := by
  intro db data mid eid cid meeting_id user_ids
  constructor
  · intro h
    unfold meeting_create at h
    rcases meeting_create_body_split ⟨db, []⟩ data mid eid with
      ⟨hcom, e2, herr2, hov⟩ | ⟨m2, ev, heq, -⟩
    · rcases hb : meeting_create_body ⟨db, []⟩ data mid eid with ⟨sx, r⟩
      rw [hb] at herr2 h
      cases r with
      | ok mm => simp at herr2
      | error e3 =>
        simp only [Except.error.injEq] at herr2 h
        exact hov cid (herr2 ▸ h)
    · rw [heq] at h
      simp at h
  · intro h
    unfold include_users at h
    split at h
    · simp at h
    · rename_i m hfind
      dsimp only at h
      split at h
      · simp at h
      · split at h
        · simp at h
        · rename_i ev hevfind
          split at h
          · simp only [Except.error.injEq, ServiceErr.overlapError.injEq] at h
            exact ⟨m, hfind, ev, hevfind, h.symm⟩
          · split at h
            · simp at h
            · split at h
              · simp at h
              · simp at h

/-- C10: the task service treats a soft-deleted task as missing —
`get_task_comments`, `update_task` and `deactivate_task` all raise
`TaskNotFound` on it (and leave the store untouched) — whereas
`meeting_deactivate` on an already-inactive meeting is an idempotent
no-op returning `True`. -/
theorem c10_soft_deleted_task_is_missing :
    (∀ (db : Db) (task_id : Nat) (t : Task),
        task_get_by_id db.tasks task_id = some t → t.is_active = false →
        get_task_comments db task_id = .error (.taskNotFound task_id) ∧
        (∀ data : TaskUpdate,
          update_task db task_id data = (db, .error (.taskNotFound task_id))) ∧
        deactivate_task db task_id = (db, .error (.taskNotFound task_id))) ∧
    (∀ (db : Db) (meeting_id : Nat) (m : Meeting),
        db.meetings.find? (fun x => decide (x.id = meeting_id)) = some m →
        m.is_active = false →
        meeting_deactivate db meeting_id = (db, .ok true)) := by
  constructor
  · intro db task_id t hfind hia
    refine ⟨?_, ?_, ?_⟩
    · unfold get_task_comments
      rw [hfind]
      simp [hia]
    · intro data
      unfold update_task
      rw [hfind]
      simp [hia]
    · unfold deactivate_task
      rw [hfind]
      simp [hia]
  · intro db meeting_id m hfind hia
    unfold meeting_deactivate
    rw [hfind]
    simp [hia]

theorem find?_replaceWhere {α : Type} (l : List α) (p : α → Bool) (x y : α)
    (h : l.find? p = some y) (hx : p x = true) :
    (replaceWhere l p x).find? p = some x := by
  induction l with
  | nil => simp at h
  | cons a t ih =>
    unfold replaceWhere at *
    rcases ha : p a with _ | _
    · rw [List.find?_cons_of_neg _ (by simp [ha])] at h
      simp only [List.map_cons]
      rw [if_neg (by simp [ha]), List.find?_cons_of_neg _ (by simp [ha])]
      exact ih h
    · simp only [List.map_cons]
      rw [if_pos ha, List.find?_cons_of_pos _ hx]

theorem include_users_noop (db : Db) (meeting_id : Nat) (user_ids : List Nat)
    (meeting : Meeting)
    (hfind : db.meetings.find? (fun m => decide (m.id = meeting_id)) = some meeting)
    (hemp : (user_ids.dedup.filter
      (fun i => !(decide (i ∈ meeting.members)))).isEmpty = true) :
    include_users db meeting_id user_ids = (db, .ok meeting) := by
  unfold include_users
  rw [hfind]
  dsimp only
  rw [if_pos hemp]

theorem include_users_success_eq (db : Db) (mid : Nat) (ids : List Nat)
    (meeting : Meeting) (ev : CalendarEvent)
    (hfind : db.meetings.find? (fun m => decide (m.id = mid)) = some meeting)
    (hemp : (ids.dedup.filter
      (fun i => !(decide (i ∈ meeting.members)))).isEmpty = false)
    (hev : db.events.find? (fun x => decide (x.id = meeting.calendar_event_id)) = some ev)
    (hover : check_overlap_users db.events meeting.start_time meeting.end_time
      (ids.dedup.filter (fun i => !(decide (i ∈ meeting.members)))) ev.id = none)
    (hshare : user_share_command_id db.users
      (ids.dedup.filter (fun i => !(decide (i ∈ meeting.members))))
      meeting.command_id = true) :
    users_in_seq db.users (ids.dedup.filter (fun i => !(decide (i ∈ meeting.members))))
      = some (db.users.filter (fun u => decide (u.id ∈
          (ids.dedup.filter (fun i => !(decide (i ∈ meeting.members))))))) ∧
    include_users db mid ids =
      ({ db with
          meetings := replaceWhere db.meetings (fun m => decide (m.id = meeting.id))
            { meeting with members := meeting.members ++
              ((db.users.filter (fun u => decide (u.id ∈
                (ids.dedup.filter (fun i => !(decide (i ∈ meeting.members))))))).map
                  (fun u => u.id)) },
          events := replaceWhere db.events (fun x => decide (x.id = ev.id))
            { ev with users := ev.users ++
              ((db.users.filter (fun u => decide (u.id ∈
                (ids.dedup.filter (fun i => !(decide (i ∈ meeting.members))))))).map
                  (fun u => u.id)) } },
       .ok { meeting with members := meeting.members ++
          ((db.users.filter (fun u => decide (u.id ∈
            (ids.dedup.filter (fun i => !(decide (i ∈ meeting.members))))))).map
              (fun u => u.id)) }) := by
  have hnodup : (ids.dedup.filter (fun i => !(decide (i ∈ meeting.members)))).Nodup :=
    List.Nodup.filter _ (List.nodup_dedup ids)
  have hd : (ids.dedup.filter (fun i => !(decide (i ∈ meeting.members)))).dedup
      = ids.dedup.filter (fun i => !(decide (i ∈ meeting.members))) :=
    List.dedup_eq_self.mpr hnodup
  have hseq : users_in_seq db.users
      (ids.dedup.filter (fun i => !(decide (i ∈ meeting.members))))
      = some (db.users.filter (fun u => decide (u.id ∈
          (ids.dedup.filter (fun i => !(decide (i ∈ meeting.members))))))) := by
    unfold users_in_seq
    dsimp only
    simp only [hd]
    rw [if_neg (by simp [hemp])]
  refine ⟨hseq, ?_⟩
  unfold include_users
  rw [hfind]
  dsimp only
  rw [if_neg (by simp [hemp]), hev]
  dsimp only
  rw [hover]
  dsimp only
  rw [if_neg (by simp [hshare]), hseq]
  dsimp only
  unfold add_members
  rfl

theorem include_success_covers (db : Db) (ids : List Nat) (meeting : Meeting)
    (hnd : (db.users.map User.id).Nodup)
    (hshare : user_share_command_id db.users
      (ids.dedup.filter (fun i => !(decide (i ∈ meeting.members))))
      meeting.command_id = true) :
    ∀ i ∈ ids.dedup, i ∈ meeting.members ++
      ((db.users.filter (fun u => decide (u.id ∈
        (ids.dedup.filter (fun i => !(decide (i ∈ meeting.members))))))).map
          (fun u => u.id)) := by
  intro i hi
  by_cases hm : i ∈ meeting.members
  · exact List.mem_append_left _ hm
  · have hiuq : i ∈ ids.dedup.filter (fun j => !(decide (j ∈ meeting.members))) := by
      simp [List.mem_filter, hi, hm]
    obtain ⟨-, hall⟩ := (user_share_command_id_iff db.users _ meeting.command_id hnd).mp hshare
    obtain ⟨u, hu, hui, -⟩ := hall i hiuq
    refine List.mem_append_right _ ?_
    refine List.mem_map.mpr ⟨u, List.mem_filter.mpr ⟨hu, ?_⟩, hui⟩
    simp only [decide_eq_true_eq]
    rw [hui]
    exact hiuq

/-- C8: `include_users` is idempotent — running it a second time with the
same id set reproduces the first call's state and result exactly — and
when the set difference of the new ids minus the current members is
empty, the call is a no-op returning the unchanged meeting on the
unchanged store. -/
theorem c8_include_users_idempotent :
    ∀ (db : Db) (meeting_id : Nat) (user_ids : List Nat),
      (db.users.map User.id).Nodup →
      include_users (include_users db meeting_id user_ids).1 meeting_id user_ids
          = include_users db meeting_id user_ids ∧
      (∀ meeting : Meeting,
        db.meetings.find? (fun m => decide (m.id = meeting_id)) = some meeting →
        (user_ids.dedup.filter
          (fun i => !(decide (i ∈ meeting.members)))).isEmpty = true →
        include_users db meeting_id user_ids = (db, .ok meeting)) := by
  intro db mid ids hnd
  refine ⟨?_, fun meeting hf he => include_users_noop db mid ids meeting hf he⟩
  cases hfind : db.meetings.find? (fun m => decide (m.id = mid)) with
  | none =>
    have h1 : include_users db mid ids = (db, .error (.meetingNotFound mid)) := by
      unfold include_users
      rw [hfind]
    rw [h1]
    exact h1
  | some meeting =>
    rcases hemp : (ids.dedup.filter (fun i => !(decide (i ∈ meeting.members)))).isEmpty
      with _ | _
    · cases hev : db.events.find? (fun x => decide (x.id = meeting.calendar_event_id)) with
      | none =>
        have h1 : include_users db mid ids
            = (db, .error (.calendarEventNotFound meeting.calendar_event_id)) := by
          unfold include_users
          rw [hfind]
          dsimp only
          rw [if_neg (by simp [hemp]), hev]
        rw [h1]
        exact h1
      | some ev =>
        cases hover : check_overlap_users db.events meeting.start_time meeting.end_time
            (ids.dedup.filter (fun i => !(decide (i ∈ meeting.members)))) ev.id with
        | some v =>
          have h1 : include_users db mid ids = (db, .error (.overlapError ev.id)) := by
            unfold include_users
            rw [hfind]
            dsimp only
            rw [if_neg (by simp [hemp]), hev]
            dsimp only
            rw [hover]
          rw [h1]
          exact h1
        | none =>
          rcases hshare : user_share_command_id db.users
              (ids.dedup.filter (fun i => !(decide (i ∈ meeting.members))))
              meeting.command_id with _ | _
          · have h1 : include_users db mid ids = (db, .error .validationError) := by
              unfold include_users
              rw [hfind]
              dsimp only
              rw [if_neg (by simp [hemp]), hev]
              dsimp only
              rw [hover]
              dsimp only
              rw [if_pos (by simp [hshare])]
            rw [h1]
            exact h1
          · obtain ⟨hseq, h1⟩ :=
              include_users_success_eq db mid ids meeting ev hfind hemp hev hover hshare
            rw [h1]
            have hmid : meeting.id = mid := by
              have hp := List.find?_some hfind
              simpa using hp
            have hcov := include_success_covers db ids meeting hnd hshare
            have hemp2 : (ids.dedup.filter (fun i => !(decide (i ∈
                (meeting.members ++ ((db.users.filter (fun u => decide (u.id ∈
                  (ids.dedup.filter (fun i => !(decide (i ∈ meeting.members))))))).map
                    (fun u => u.id))))))).isEmpty = true := by
              have hnil : (ids.dedup.filter (fun i => !(decide (i ∈
                  (meeting.members ++ ((db.users.filter (fun u => decide (u.id ∈
                    (ids.dedup.filter (fun i => !(decide (i ∈ meeting.members))))))).map
                      (fun u => u.id))))))) = [] := by
                refine List.filter_eq_nil_iff.mpr ?_
                intro i hi
                simp only [Bool.not_eq_true', decide_eq_false_iff_not, not_not]
                exact hcov i hi
              rw [hnil]
              rfl
            refine include_users_noop _ mid ids
              { meeting with members := meeting.members ++
                ((db.users.filter (fun u => decide (u.id ∈
                  (ids.dedup.filter (fun i => !(decide (i ∈ meeting.members))))))).map
                    (fun u => u.id)) } ?_ hemp2
            show (replaceWhere db.meetings (fun m => decide (m.id = meeting.id)) _).find?
              (fun m => decide (m.id = mid)) = _
            simp only [hmid]
            exact find?_replaceWhere db.meetings (fun m => decide (m.id = mid)) _ meeting
              hfind (by simp [hmid])
    · have h1 : include_users db mid ids = (db, .ok meeting) :=
        include_users_noop db mid ids meeting hfind hemp
      rw [h1]
      exact h1

theorem users_filterMap_const {β : Type} (users : List User) (a : Nat) (p : User → Bool)
    (hnd : (users.map User.id).Nodup) (hp : ∀ u, p u = true → u.id = a) (v : β) :
    users.filterMap (fun u => if p u then some v else none)
      = if users.any p then [v] else [] := by
  induction users with
  | nil => rfl
  | cons u us ih =>
    simp only [List.map_cons, List.nodup_cons] at hnd
    rcases hpu : p u with _ | _
    · simp only [List.filterMap_cons, hpu, List.any_cons, Bool.false_or]
      exact ih hnd.2
    · have hrest : us.filterMap (fun w => if p w then some v else none) = [] := by
        refine List.filterMap_eq_nil_iff.mpr (fun x hx => ?_)
        rcases hq : p x with _ | _
        · simp [hq]
        · exfalso
          have hxa : x.id = a := hp x hq
          have hua : u.id = a := hp u hpu
          exact hnd.1 (by rw [hua, ← hxa]; exact List.mem_map_of_mem User.id hx)
      simp [List.filterMap_cons, hpu, hrest]

theorem command_grade_rows_filterMap (db : Db) (cid : Nat) (s e : Int)
    (hnd : (db.users.map User.id).Nodup) :
    command_grade_rows db cid s e = db.tasks.filterMap (fun t =>
      match t.grade with
      | some g =>
        if users_match db cid t.assignee_id && task_in_period t s e then
          some (t.assignee_id, g.value)
        else none
      | none => none) := by
  unfold command_grade_rows
  have key : ∀ t : Task,
      db.users.filterMap (fun u =>
        match t.grade with
        | some g =>
          if decide (u.id = t.assignee_id) && decide (u.command_id = some cid)
              && task_in_period t s e then
            some (t.assignee_id, g.value)
          else none
        | none => none)
      = (match t.grade with
        | some g =>
          if users_match db cid t.assignee_id && task_in_period t s e then
            some (t.assignee_id, g.value)
          else none
        | none => (none : Option (Nat × ℕ))).toList := by
    intro t
    cases hg : t.grade with
    | none => simp
    | some g =>
      dsimp only
      rw [users_filterMap_const db.users t.assignee_id
        (fun u => decide (u.id = t.assignee_id) && decide (u.command_id = some cid)
          && task_in_period t s e) hnd
        (fun u hu => by
          simp only [Bool.and_eq_true, decide_eq_true_eq] at hu
          exact hu.1.1) (t.assignee_id, g.value)]
      rcases hc : task_in_period t s e with _ | _
      · simp [hc, users_match]
      · simp only [hc, users_match, Bool.and_true]
        split <;> rfl
  have gen : ∀ tasks : List Task,
      tasks.flatMap (fun t => db.users.filterMap (fun u =>
        match t.grade with
        | some g =>
          if decide (u.id = t.assignee_id) && decide (u.command_id = some cid)
              && task_in_period t s e then
            some (t.assignee_id, g.value)
          else none
        | none => none))
      = tasks.filterMap (fun t =>
        match t.grade with
        | some g =>
          if users_match db cid t.assignee_id && task_in_period t s e then
            some (t.assignee_id, g.value)
          else none
        | none => none) := by
    intro tasks
    induction tasks with
    | nil => rfl
    | cons t ts ih =>
      simp only [List.flatMap_cons, List.filterMap_cons, key t, ih]
      cases hft : (match t.grade with
        | some g =>
          if users_match db cid t.assignee_id && task_in_period t s e then
            some (t.assignee_id, g.value)
          else none
        | none => (none : Option (Nat × ℕ))) with
      | none => simp [hft]
      | some v => simp [hft]
  exact gen db.tasks

theorem rows_key_grades (db : Db) (cid : Nat) (s e : Int) (a : Nat)
    (hnd : (db.users.map User.id).Nodup) (hmatch : users_match db cid a = true) :
    ((command_grade_rows db cid s e).filter (fun r => decide (r.1 = a))).map Prod.snd
      = user_task_grades db a s e := by
  rw [command_grade_rows_filterMap db cid s e hnd, List.filter_filterMap,
    List.map_filterMap]
  unfold user_task_grades
  refine List.filterMap_congr (fun t ht => ?_)
  cases hg : t.grade with
  | none => rfl
  | some g =>
    dsimp only
    rcases hass : decide (t.assignee_id = a) with _ | _
    · by_cases hcond : (users_match db cid t.assignee_id && task_in_period t s e) = true
      · simp [hcond, Option.filter_some, hass]
      · simp [hcond, hass]
    · have ha : t.assignee_id = a := of_decide_eq_true hass
      rw [ha]
      rcases hp : task_in_period t s e with _ | _
      · simp [hp, hmatch]
      · simp [hp, hmatch, Option.filter_some]

theorem mem_rows_keys (db : Db) (cid : Nat) (s e : Int) (a : Nat)
    (hnd : (db.users.map User.id).Nodup) :
    a ∈ (command_grade_rows db cid s e).map Prod.fst ↔
      users_match db cid a = true ∧ user_task_grades db a s e ≠ [] := by
  rw [command_grade_rows_filterMap db cid s e hnd]
  constructor
  · intro h
    rcases List.mem_map.mp h with ⟨r, hr, hra⟩
    rcases List.mem_filterMap.mp hr with ⟨t, ht, hf⟩
    cases hg : t.grade with
    | none => rw [hg] at hf; simp at hf
    | some g =>
      rw [hg] at hf
      dsimp only at hf
      by_cases hcond : (users_match db cid t.assignee_id && task_in_period t s e) = true
      · rw [if_pos hcond] at hf
        simp only [Option.some.injEq] at hf
        subst hf
        simp only [Bool.and_eq_true] at hcond
        have hassa : t.assignee_id = a := hra
        constructor
        · rw [← hassa]; exact hcond.1
        · refine List.ne_nil_of_mem (a := g.value) ?_
          refine List.mem_filterMap.mpr ⟨t, ht, ?_⟩
          rw [hg]
          simp [hassa, hcond.2]
      · rw [if_neg hcond] at hf; simp at hf
  · rintro ⟨hm, hgr⟩
    rcases List.exists_mem_of_ne_nil _ hgr with ⟨gv, hgv⟩
    rcases List.mem_filterMap.mp hgv with ⟨t, ht, hf⟩
    cases hgrade : t.grade with
    | none => rw [hgrade] at hf; simp at hf
    | some g =>
      rw [hgrade] at hf
      dsimp only at hf
      by_cases hcond : (decide (t.assignee_id = a) && task_in_period t s e) = true
      · simp only [Bool.and_eq_true, decide_eq_true_eq] at hcond
        refine List.mem_map.mpr ⟨(t.assignee_id, g.value),
          List.mem_filterMap.mpr ⟨t, ht, ?_⟩, hcond.1⟩
        rw [hgrade]
        dsimp only
        rw [if_pos (by rw [hcond.1]; simp [hm, hcond.2])]
      · rw [if_neg hcond] at hf; simp at hf

theorem filterMap_if_empty {α : Type} (l : List α) (c : α → List ℕ) :
    l.filterMap (fun x => if (c x).isEmpty then none else some (ratAvg (c x)))
      = (l.filter (fun x => !(c x).isEmpty)).map (fun x => ratAvg (c x)) := by
  induction l with
  | nil => rfl
  | cons x xs ih =>
    by_cases hx : (c x).isEmpty = true
    · have hx2 : c x = [] := List.isEmpty_iff.mp hx
      simpa [List.filterMap_cons, List.filter_cons, hx2] using ih
    · have hx2 : ¬ c x = [] := fun h => hx (List.isEmpty_iff.mpr h)
      simpa [List.filterMap_cons, List.filter_cons, hx2] using ih

/-- C9: the command average is the unweighted mean of each assignee's own
average grade over their graded tasks due in the range (a mean of means,
exactly the spec-worded `spec_avg_grade_for_command`), rounded to 4
decimal places; it is `none` exactly when no graded task of a command
member falls in the range; and on the two-assignee demonstration store it
differs from the flat mean over all individual task grades. -/
theorem c9_command_avg_is_mean_of_means :
    ∀ (db : Db) (command_id : Nat) (start_date end_date : Int),
      (db.users.map User.id).Nodup →
      get_avg_grade_period_command db command_id start_date end_date
          = spec_avg_grade_for_command db command_id start_date end_date ∧
      (get_avg_grade_period_command db command_id start_date end_date = none ↔
        command_grade_rows db command_id start_date end_date = []) ∧
      get_avg_grade_period_command gradeDb 1 0 10 ≠ spec_flat_avg_grade gradeDb 1 0 10 := by
  intro db cid s e hnd
  have hperm : ((command_grade_rows db cid s e).map Prod.fst).dedup.Perm
      (((db.users.filter (fun u => decide (u.command_id = some cid))).filter
        (fun u => !(user_task_grades db u.id s e).isEmpty)).map (fun u => u.id)) := by
    refine (List.perm_ext_iff_of_nodup (List.nodup_dedup _)
      (List.Nodup.sublist (List.Sublist.map _
        ((List.filter_sublist _).trans (List.filter_sublist _))) hnd)).mpr ?_
    intro a
    rw [List.mem_dedup, mem_rows_keys db cid s e a hnd]
    constructor
    · rintro ⟨hm, hgr⟩
      rcases List.any_eq_true.mp hm with ⟨u, hu, hcond⟩
      simp only [Bool.and_eq_true, decide_eq_true_eq] at hcond
      have hie : (user_task_grades db a s e).isEmpty = false := by
        rcases h : (user_task_grades db a s e).isEmpty with _ | _
        · rfl
        · exact absurd (List.isEmpty_iff.mp h) hgr
      refine List.mem_map.mpr ⟨u, List.mem_filter.mpr
        ⟨List.mem_filter.mpr ⟨hu, by simp [hcond.2]⟩, ?_⟩, hcond.1⟩
      rw [hcond.1, hie]
      rfl
    · intro hmem
      rcases List.mem_map.mp hmem with ⟨u, hu2, hua⟩
      rcases List.mem_filter.mp hu2 with ⟨hu3, hne⟩
      rcases List.mem_filter.mp hu3 with ⟨hu, hcmd⟩
      simp only [decide_eq_true_eq] at hcmd
      refine ⟨List.any_eq_true.mpr ⟨u, hu, by simp [hua, hcmd]⟩, ?_⟩
      rw [← hua]
      intro hnil
      rw [hnil] at hne
      simp at hne
  have havgs1 : ((command_grade_rows db cid s e).map Prod.fst).dedup.map
      (fun a => ratAvg (((command_grade_rows db cid s e).filter
        (fun r => decide (r.1 = a))).map Prod.snd))
      = ((command_grade_rows db cid s e).map Prod.fst).dedup.map
        (fun a => ratAvg (user_task_grades db a s e)) := by
    refine List.map_congr_left (fun a ha => ?_)
    have hm := ((mem_rows_keys db cid s e a hnd).mp (List.mem_dedup.mp ha)).1
    rw [rows_key_grades db cid s e a hnd hm]
  have hA : get_avg_grade_period_command db cid s e =
      (if (((command_grade_rows db cid s e).map Prod.fst).dedup.map
          (fun a => ratAvg (user_task_grades db a s e))).isEmpty then none
       else some (round4 ((((command_grade_rows db cid s e).map Prod.fst).dedup.map
            (fun a => ratAvg (user_task_grades db a s e))).sum /
          (((command_grade_rows db cid s e).map Prod.fst).dedup.map
            (fun a => ratAvg (user_task_grades db a s e))).length))) := by
    unfold get_avg_grade_period_command
    dsimp only
    rw [havgs1]
  have hB : spec_avg_grade_for_command db cid s e =
      (if ((((db.users.filter (fun u => decide (u.command_id = some cid))).filter
            (fun u => !(user_task_grades db u.id s e).isEmpty)).map (fun u => u.id)).map
          (fun a => ratAvg (user_task_grades db a s e))).isEmpty then none
       else some (round4 (((((db.users.filter (fun u => decide (u.command_id = some cid))).filter
              (fun u => !(user_task_grades db u.id s e).isEmpty)).map (fun u => u.id)).map
            (fun a => ratAvg (user_task_grades db a s e))).sum /
          ((((db.users.filter (fun u => decide (u.command_id = some cid))).filter
              (fun u => !(user_task_grades db u.id s e).isEmpty)).map (fun u => u.id)).map
            (fun a => ratAvg (user_task_grades db a s e))).length))) := by
    unfold spec_avg_grade_for_command
    dsimp only
    rw [filterMap_if_empty]
    rw [List.map_map]
    rfl
  have key : ∀ (L1 L2 : List ℚ), L1.Perm L2 →
      (if L1.isEmpty then none else some (round4 (L1.sum / L1.length)))
        = (if L2.isEmpty then (none : Option ℚ)
           else some (round4 (L2.sum / L2.length))) := by
    intro L1 L2 hp
    have hlen := hp.length_eq
    have hsum := hp.sum_eq
    by_cases h1 : L1.isEmpty = true
    · have h2 : L2.isEmpty = true := by
        rw [List.isEmpty_iff] at h1 ⊢
        rw [← List.length_eq_zero, ← hlen, List.length_eq_zero]
        exact h1
      rw [if_pos h1, if_pos h2]
    · have h2 : ¬ L2.isEmpty = true := by
        intro h
        apply h1
        rw [List.isEmpty_iff] at h ⊢
        rw [← List.length_eq_zero, hlen, List.length_eq_zero]
        exact h
      rw [if_neg h1, if_neg h2, hsum, hlen]
  refine ⟨?_, ?_, ?_⟩
  · rw [hA, hB]
    exact key _ _ (hperm.map _)
  · rw [hA]
    constructor
    · intro h
      by_cases h1 : (((command_grade_rows db cid s e).map Prod.fst).dedup.map
          (fun a => ratAvg (user_task_grades db a s e))).isEmpty = true
      · rw [List.isEmpty_iff, List.map_eq_nil_iff, List.dedup_eq_nil,
          List.map_eq_nil_iff] at h1
        exact h1
      · rw [if_neg h1] at h
        simp at h
    · intro h
      have h1 : (((command_grade_rows db cid s e).map Prod.fst).dedup.map
          (fun a => ratAvg (user_task_grades db a s e))).isEmpty = true := by
        rw [List.isEmpty_iff, List.map_eq_nil_iff, List.dedup_eq_nil,
          List.map_eq_nil_iff]
        exact h
      rw [if_pos h1]
  · have havgs : (((command_grade_rows gradeDb 1 0 10).map Prod.fst).dedup.map
        (fun a => ratAvg (((command_grade_rows gradeDb 1 0 10).filter
          (fun r => decide (r.1 = a))).map Prod.snd))) = [ratAvg [3], ratAvg [0, 0, 0]] := by
      rfl
    have hflat : ((gradeDb.users.filter
        (fun u => decide (u.command_id = some 1))).flatMap
        (fun u => user_task_grades gradeDb u.id 0 10)) = [3, 0, 0, 0] := by
      rfl
    have e1 : get_avg_grade_period_command gradeDb 1 0 10 = some ((3 : ℚ)/2) := by
      unfold get_avg_grade_period_command
      dsimp only
      rw [havgs]
      norm_num [ratAvg, round4]
    have e2 : spec_flat_avg_grade gradeDb 1 0 10 = some ((3 : ℚ)/4) := by
      unfold spec_flat_avg_grade
      dsimp only
      rw [hflat]
      norm_num [ratAvg, round4]
    rw [e1, e2]
    intro hcontra
    simp only [Option.some.injEq] at hcontra
    norm_num at hcontra

/-- C9 witness: the characterization applied to the demonstration store. -/
theorem c9_command_avg_is_mean_of_means_witness :
    get_avg_grade_period_command gradeDb 1 0 10
        = spec_avg_grade_for_command gradeDb 1 0 10 ∧
    (get_avg_grade_period_command gradeDb 1 0 10 = none ↔
      command_grade_rows gradeDb 1 0 10 = []) ∧
    get_avg_grade_period_command gradeDb 1 0 10 ≠ spec_flat_avg_grade gradeDb 1 0 10 :=
  c9_command_avg_is_mean_of_means gradeDb 1 0 10 (by decide)

/-- C8 witness: adding user 8 to meeting 3 of the demo store twice yields
exactly the state and result of adding once. -/
theorem c8_include_users_idempotent_witness :
    include_users (include_users includeDb 3 [8]).1 3 [8]
        = include_users includeDb 3 [8] ∧
    (∀ meeting : Meeting,
      includeDb.meetings.find? (fun m => decide (m.id = 3)) = some meeting →
      (([8] : List Nat).dedup.filter
        (fun i => !(decide (i ∈ meeting.members)))).isEmpty = true →
      include_users includeDb 3 [8] = (includeDb, .ok meeting)) :=
  c8_include_users_idempotent includeDb 3 [8] (by decide)

end BMS
